import Mathlib

/-!
Verification development for the gpt-bot Telegram relay (index.mjs).

The JavaScript source is shallowly embedded: the in-memory session maps
become Lean functions, database tables become lists of row structures
(with `Option` marking an absent connection pool), and every external
call (Telegram API, LLM API, HTTP fetch, SQL round trip) is a parameter
supplying the value that call would have returned.  JS strings are
modelled by `String`, JS numbers holding Telegram identifiers by `Int`,
and `s.slice(0, n)` by `jsSlice` (truncation counted in characters).
-/

namespace GptBot

/-- One role-tagged turn, the `{ role, content }` records held in the
`sessions` and `chatLog` maps of index.mjs. -/
structure Msg where
  role : String
  content : String
deriving DecidableEq

/-- The constant `MAX_TURNS = 8` of index.mjs. -/
def MAX_TURNS : Nat := 8

/-- Effect of `pushHistory` on the array stored at one session key:
`arr.push({role,content})` followed by `if (arr.length > MAX_TURNS*2) arr.shift()`. -/
def pushArr (arr : List Msg) (m : Msg) : List Msg :=
  if MAX_TURNS * 2 < (arr ++ [m]).length then (arr ++ [m]).tail else arr ++ [m]

/-- The `sessions` map of index.mjs: a session key string to the stored
array, `none` when the key is absent. -/
def SessionMap := String → Option (List Msg)

/-- The `getKey` helper of index.mjs: the string `chat_id + ":" + user_id`. -/
def getKey (chatId userId : Int) : String :=
  toString chatId ++ ":" ++ toString userId

/-- The `pushHistory` function of index.mjs acting on the whole map:
it creates an empty array for a missing key, pushes the new entry and
evicts the oldest entry when the cap `MAX_TURNS*2` is exceeded. -/
def pushHistory (s : SessionMap) (k : String) (m : Msg) : SessionMap :=
  fun k2 => if k2 = k then some (pushArr ((s k).getD []) m) else s k2

/-- The two in-memory maps of index.mjs: `sessions` (per chat-user key)
and `chatLog` (per chat id). -/
structure BotState where
  sessions : SessionMap
  chatLog : Int → Option (List Msg)

/-- The `/reset` command handler of index.mjs: `sessions.delete(getKey(ctx))`;
the `chatLog` map is not touched. -/
def resetCmd (st : BotState) (k : String) : BotState :=
  { st with sessions := fun k2 => if k2 = k then none else st.sessions k2 }

/-- The empty session map (process start: no key present). -/
def emptySessions : SessionMap := fun _ => none

lemma pushArr_length_le (arr : List Msg) (m : Msg)
    (h : arr.length ≤ MAX_TURNS * 2) : (pushArr arr m).length ≤ MAX_TURNS * 2 := by
  unfold pushArr
  simp only [List.length_append, List.length_singleton]
  split
  · simp only [List.length_tail, List.length_append, List.length_singleton]
    omega
  · next hc => simp only [List.length_append, List.length_singleton]; omega

lemma foldl_pushArr_drop (ms : List Msg) :
    ∀ acc : List Msg, acc.length ≤ MAX_TURNS * 2 →
      ms.foldl pushArr acc = (acc ++ ms).drop ((acc ++ ms).length - MAX_TURNS * 2) := by
  induction ms with
  | nil =>
    intro acc h
    simp only [List.foldl_nil, List.append_nil]
    rw [show acc.length - MAX_TURNS * 2 = 0 by omega, List.drop_zero]
  | cons m rest ih =>
    intro acc h
    rw [List.foldl_cons]
    rw [ih (pushArr acc m) (pushArr_length_le acc m h)]
    unfold pushArr
    by_cases hc : MAX_TURNS * 2 < (acc ++ [m]).length
    · rw [if_pos hc]
      have hlen : acc.length = MAX_TURNS * 2 := by
        simp only [List.length_append, List.length_singleton] at hc; omega
      have htail : (acc ++ [m]).tail ++ rest = ((acc ++ [m]) ++ rest).drop 1 := by
        rw [List.drop_append_eq_append_drop, List.drop_one]
        have hz : 1 - (acc ++ [m]).length = 0 := by
          simp only [List.length_append, List.length_singleton]; omega
        rw [hz, List.drop_zero]
      rw [htail, List.drop_drop]
      have hassoc : acc ++ m :: rest = (acc ++ [m]) ++ rest := by simp
      rw [hassoc]
      congr 1
      simp only [List.length_drop, List.length_append, List.length_singleton, List.length_cons]
      omega
    · rw [if_neg hc]
      have hassoc : acc ++ m :: rest = (acc ++ [m]) ++ rest := by simp
      rw [hassoc]

lemma foldl_pushHistory_at (ms : List Msg) :
    ∀ (s0 : SessionMap) (k : String),
      ((ms.foldl (fun st m => pushHistory st k m) s0) k).getD []
        = ms.foldl pushArr ((s0 k).getD []) := by
  induction ms with
  | nil => intro s0 k; rfl
  | cons m rest ih =>
    intro s0 k
    rw [List.foldl_cons, List.foldl_cons, ih]
    congr 1
    simp [pushHistory]

/-- C1.  Pushing any sequence of entries to one session key: the stored
array for that key is always exactly the most recent `min N 16` pushed
entries in arrival order (the suffix obtained by dropping the oldest
overflowing entries), so its length never exceeds `MAX_TURNS * 2 = 16`;
the bound holds after every prefix of the pushes. -/
theorem pushHistory_fifo (ms : List Msg) (k : String) :
    (((ms.foldl (fun st m => pushHistory st k m) emptySessions) k).getD [])
        = ms.drop (ms.length - MAX_TURNS * 2) ∧
    (((ms.foldl (fun st m => pushHistory st k m) emptySessions) k).getD []).length
        = min ms.length (MAX_TURNS * 2) ∧
    (∀ n : Nat,
      ((((ms.take n).foldl (fun st m => pushHistory st k m) emptySessions) k).getD []).length
        ≤ MAX_TURNS * 2) := by
  have key : ∀ l : List Msg,
      (((l.foldl (fun st m => pushHistory st k m) emptySessions) k).getD [])
        = l.drop (l.length - MAX_TURNS * 2) := by
    intro l
    rw [foldl_pushHistory_at]
    have h0 : (emptySessions k).getD [] = ([] : List Msg) := rfl
    rw [h0, foldl_pushArr_drop l [] (by simp)]
    simp
  refine ⟨key ms, ?_, ?_⟩
  · rw [key ms]; simp only [List.length_drop]; omega
  · intro n
    rw [key (ms.take n)]
    simp only [List.length_drop, List.length_take]
    omega

/-- C8.  The reset command on key `getKey c u` removes exactly that
session entry: the key itself maps to nothing afterwards, every other
key keeps its previous history, and the per-chat `chatLog` map is
untouched. -/
theorem reset_frame (st : BotState) (c u c2 u2 : Int)
    (h : getKey c2 u2 ≠ getKey c u) :
    (resetCmd st (getKey c u)).sessions (getKey c u) = none ∧
    (resetCmd st (getKey c u)).sessions (getKey c2 u2) = st.sessions (getKey c2 u2) ∧
    (resetCmd st (getKey c u)).chatLog = st.chatLog := by
  refine ⟨?_, ?_, rfl⟩
  · simp [resetCmd]
  · simp [resetCmd, h]

/-- Witness for C8 at a concrete state and two concrete distinct keys. -/
theorem reset_frame_witness :
    (resetCmd ⟨fun _ => some [⟨"user", "hi"⟩], fun _ => none⟩ (getKey 1 2)).sessions
        (getKey 1 3) = some [⟨"user", "hi"⟩] := by
  have h := reset_frame ⟨fun _ => some [⟨"user", "hi"⟩], fun _ => none⟩ 1 2 1 3 (by decide)
  exact h.2.1

/-- The `BASE_SYSTEM` constant of index.mjs. -/
def BASE_SYSTEM : String :=
  "Ты — лаконичный помощник. Пиши по делу, используй Markdown и краткие выводы. Если просят резюме чата — выделяй главные пункты и задачи."

/-- The three persona presets held in `sessionRoles` (index.mjs `ROLES` keys). -/
inductive Role where
  | analyst
  | translator
  | coder
deriving DecidableEq

/-- The `ROLES` instruction strings of index.mjs. -/
def ROLES : Role → String
  | Role.analyst => "Роль: аналитик. Делай структурированные выводы, риски и варианты."
  | Role.translator => "Роль: переводчик. Переводи кратко и точно, указывай язык оригинала."
  | Role.coder => "Роль: код-ассистент. Пиши код и объясняй шаги максимально ясно."

/-- The `buildMessages` function of index.mjs.  Its awaited reads are
passed in as values: `profile` is what `getUserProfile` returned for
`ctx.from.id`, `roleMode` is `sessionRoles.get(ctx.from.id)`, `summary`
is what `lastSummary` returned for `ctx.chat.id`, and `hist` is
`sessions.get(getKey(ctx)) || []`.  The system text joins the non-empty
entries of `[BASE_SYSTEM, profile line, role line]` with a newline
(`filter(Boolean).join('\n')`); a non-empty summary adds a second
system message; the history and the new user text follow. -/
def buildMessages (profile : String) (roleMode : Option Role) (summary : String)
    (hist : List Msg) (userText : String) : List Msg :=
  let sys := String.intercalate "\n"
    (List.filter (fun s => !s.isEmpty)
      [BASE_SYSTEM,
       if profile.isEmpty then "" else "Профиль пользователя: " ++ profile,
       match roleMode with
       | some r => ROLES r
       | none => ""])
  ⟨"system", sys⟩ ::
    ((if summary.isEmpty then [] else [⟨"system", "Краткая память чата: " ++ summary⟩])
      ++ hist ++ [⟨"user", userText⟩])

set_option maxRecDepth 4096 in
/-- C2.  With stored profile "P", active role translator, last summary
"S", session history user:"a", assistant:"b" and new user text "c",
`buildMessages` returns exactly the five messages of the claim, in
order: one system message concatenating the base text, the profile line
and the translator instruction (joined by newlines, in that order), one
summary system message, the two history turns, then the new user turn. -/
theorem buildMessages_order :
    buildMessages "P" (some Role.translator) "S"
        [⟨"user", "a"⟩, ⟨"assistant", "b"⟩] "c" =
      [⟨"system", BASE_SYSTEM ++ "\n" ++ "Профиль пользователя: P" ++ "\n"
          ++ ROLES Role.translator⟩,
       ⟨"system", "Краткая память чата: S"⟩,
       ⟨"user", "a"⟩,
       ⟨"assistant", "b"⟩,
       ⟨"user", "c"⟩] := by
  rfl

/-- One row of the `user_channels` join used by `getUserChannels`
(`uc.chat_id, c.title, c.username, c.type, c.bot_can_post`). -/
structure ChannelRow where
  chat_id : Int
  title : Option String
  username : Option String
  type : Option String
  bot_can_post : Bool
deriving DecidableEq

/-- A connected database, abstracted as the rows each read query of
index.mjs would return: `profileRows u` are the `system_prompt` values
of `SELECT system_prompt FROM users WHERE user_id=u` (`none` for SQL
NULL), `channelRows u` the joined rows of `getUserChannels`, and
`summaryRows c` the `summary` values of
`SELECT summary FROM summaries WHERE chat_id=c ORDER BY ts DESC`. -/
structure Db where
  profileRows : Int → List (Option String)
  channelRows : Int → List ChannelRow
  summaryRows : Int → List (Option String)

/-- The `getUserProfile` function of index.mjs.  `dbQuery` returns null
when no pool is configured, and `const { rows } = null` throws a
TypeError, modelled as `Except.error`; with a pool it returns
`rows?.[0]?.system_prompt || ''`.  Note the missing `if (!pool)` guard
that every other read path has. -/
def getUserProfile (pool : Option Db) (user_id : Int) : Except String String :=
  match pool with
  | none => Except.error "TypeError: cannot destructure rows of null"
  | some db => Except.ok ((((db.profileRows user_id).head?).bind id).getD "")

/-- The `getUserProfile` variant of the earlier source revision
(src/unnamed/part_001), which starts with `if (!pool) return '';`. -/
def getUserProfileGuarded (pool : Option Db) (user_id : Int) : String :=
  match pool with
  | none => ""
  | some db => (((db.profileRows user_id).head?).bind id).getD ""

/-- The `getUserChannels` function of index.mjs: `if (!pool) return [];`
then `rows || []`. -/
def getUserChannels (pool : Option Db) (user_id : Int) : List ChannelRow :=
  match pool with
  | none => []
  | some db => db.channelRows user_id

/-- The `lastSummary` function of index.mjs: `if (!pool) return '';`
then `rows?.[0]?.summary || ''` of the ts-descending LIMIT 1 query. -/
def lastSummary (pool : Option Db) (chat_id : Int) : String :=
  match pool with
  | none => ""
  | some db => (((db.summaryRows chat_id).head?).bind id).getD ""

/-- C3 (code bug).  Evaluating the read paths with no configured pool:
`getUserChannels` and `lastSummary` do return their empty defaults, but
`getUserProfile` in index.mjs destructures the `null` that `dbQuery`
returns and throws instead of returning `''`; the guarded variant of
the earlier revision returns `''` as the claim states. -/
theorem noPool_read_paths :
    getUserChannels none 42 = [] ∧
    lastSummary none 7 = "" ∧
    getUserProfile none 42 = Except.error "TypeError: cannot destructure rows of null" ∧
    getUserProfileGuarded none 42 = "" :=
  ⟨rfl, rfl, rfl, rfl⟩

/-- One row of the `reactions` table. -/
structure ReactionRow where
  chat_id : Int
  message_id : Int
  emoji : String
  user_id : Int
  ts : Int
deriving DecidableEq

/-- Equality on the primary key `(chat_id, message_id, emoji, user_id)`
of the `reactions` table. -/
def reactionKeyEq (a b : ReactionRow) : Bool :=
  a.chat_id == b.chat_id && a.message_id == b.message_id
    && a.emoji == b.emoji && a.user_id == b.user_id

/-- The `INSERT ... ON CONFLICT(chat_id, message_id, emoji, user_id)
DO NOTHING` statement of `storeReaction`: append the row unless a row
with the same primary key already exists. -/
def insertReactionRow (tbl : List ReactionRow) (r : ReactionRow) : List ReactionRow :=
  if tbl.any (fun x => reactionKeyEq x r) then tbl else tbl ++ [r]

/-- The `storeReaction` function of index.mjs: a no-op without a pool;
otherwise `const uid = user_id ?? 0` and the conflict-ignoring insert. -/
def storeReaction (db : Option (List ReactionRow)) (chat_id message_id : Int)
    (emoji : String) (user_id : Option Int) (ts : Int) : Option (List ReactionRow) :=
  match db with
  | none => none
  | some tbl => some (insertReactionRow tbl ⟨chat_id, message_id, emoji, user_id.getD 0, ts⟩)

/-- Number of stored reaction rows with the given de-duplication key. -/
def countKey (tbl : List ReactionRow) (c m : Int) (e : String) (uid : Int) : Nat :=
  tbl.countP fun x => reactionKeyEq x ⟨c, m, e, uid, 0⟩

lemma reactionKeyEq_self (c m : Int) (e : String) (uid t t2 : Int) :
    reactionKeyEq ⟨c, m, e, uid, t⟩ ⟨c, m, e, uid, t2⟩ = true := by
  simp [reactionKeyEq]

lemma insertReactionRow_fresh (tbl : List ReactionRow) (c m : Int) (e : String)
    (uid t : Int) (h : countKey tbl c m e uid = 0) :
    insertReactionRow tbl ⟨c, m, e, uid, t⟩ = tbl ++ [⟨c, m, e, uid, t⟩] := by
  unfold insertReactionRow
  rw [if_neg]
  intro hany
  rcases List.any_eq_true.mp hany with ⟨x, hx, hkey⟩
  have := List.countP_eq_zero.mp h x hx
  exact this hkey

lemma countKey_append_one (tbl : List ReactionRow) (c m : Int) (e : String)
    (uid t : Int) (h : countKey tbl c m e uid = 0) :
    countKey (tbl ++ [⟨c, m, e, uid, t⟩]) c m e uid = 1 := by
  unfold countKey at h ⊢
  rw [List.countP_append, h]
  simp [List.countP, List.countP.go, reactionKeyEq_self]

lemma insertReactionRow_dup (tbl : List ReactionRow) (c m : Int) (e : String)
    (uid t t2 : Int) :
    insertReactionRow (tbl ++ [⟨c, m, e, uid, t⟩]) ⟨c, m, e, uid, t2⟩
      = tbl ++ [⟨c, m, e, uid, t⟩] := by
  unfold insertReactionRow
  rw [if_pos]
  apply List.any_eq_true.mpr
  exact ⟨⟨c, m, e, uid, t⟩, by simp, reactionKeyEq_self c m e uid t t2⟩

/-- C6.  `storeReaction` is idempotent on the de-duplication key: from a
table without the key, the first call stores exactly one row and a
second call with the same `(chat_id, message_id, emoji, user_id)` (even
at a different timestamp) leaves the stored state unchanged. -/
theorem storeReaction_idempotent (tbl : List ReactionRow) (c m : Int) (e : String)
    (u : Option Int) (t1 t2 : Int) (h : countKey tbl c m e (u.getD 0) = 0) :
    storeReaction (some tbl) c m e u t1 = some (tbl ++ [⟨c, m, e, u.getD 0, t1⟩]) ∧
    countKey (tbl ++ [⟨c, m, e, u.getD 0, t1⟩]) c m e (u.getD 0) = 1 ∧
    storeReaction (some (tbl ++ [⟨c, m, e, u.getD 0, t1⟩])) c m e u t2
      = some (tbl ++ [⟨c, m, e, u.getD 0, t1⟩]) := by
  refine ⟨?_, countKey_append_one tbl c m e (u.getD 0) t1 h, ?_⟩
  · show some (insertReactionRow tbl ⟨c, m, e, u.getD 0, t1⟩)
        = some (tbl ++ [⟨c, m, e, u.getD 0, t1⟩])
    rw [insertReactionRow_fresh tbl c m e (u.getD 0) t1 h]
  · show some (insertReactionRow (tbl ++ [⟨c, m, e, u.getD 0, t1⟩]) ⟨c, m, e, u.getD 0, t2⟩)
        = some (tbl ++ [⟨c, m, e, u.getD 0, t1⟩])
    rw [insertReactionRow_dup tbl c m e (u.getD 0) t1 t2]

/-- Witness for C6 at the empty table and a concrete reaction. -/
theorem storeReaction_idempotent_witness :
    storeReaction (some ([] : List ReactionRow)) 1 2 "👍" (some 7) 100
      = some [⟨1, 2, "👍", 7, 100⟩] ∧
    storeReaction (some [⟨1, 2, "👍", 7, 100⟩]) 1 2 "👍" (some 7) 200
      = some [⟨1, 2, "👍", 7, 100⟩] := by
  have h := storeReaction_idempotent [] 1 2 "👍" (some 7) 100 200 (by decide)
  exact ⟨h.1, by simpa using h.2.2⟩

/-- C9.  `storeReaction` maps an absent acting user to identifier 0:
submitting `user_id = null` and then `user_id = 0` for the same
`(chat_id, message_id, emoji)` collides on the de-duplication key,
leaving exactly one stored row between both calls. -/
theorem storeReaction_null_zero (tbl : List ReactionRow) (c m : Int) (e : String)
    (t1 t2 : Int) (h : countKey tbl c m e 0 = 0) :
    storeReaction (some tbl) c m e none t1 = some (tbl ++ [⟨c, m, e, 0, t1⟩]) ∧
    storeReaction (some (tbl ++ [⟨c, m, e, 0, t1⟩])) c m e (some 0) t2
      = some (tbl ++ [⟨c, m, e, 0, t1⟩]) ∧
    countKey (tbl ++ [⟨c, m, e, 0, t1⟩]) c m e 0 = 1 := by
  refine ⟨?_, ?_, countKey_append_one tbl c m e 0 t1 h⟩
  · show some (insertReactionRow tbl ⟨c, m, e, (none : Option Int).getD 0, t1⟩)
        = some (tbl ++ [⟨c, m, e, 0, t1⟩])
    rw [show (none : Option Int).getD 0 = 0 from rfl,
        insertReactionRow_fresh tbl c m e 0 t1 h]
  · show some (insertReactionRow (tbl ++ [⟨c, m, e, 0, t1⟩])
          ⟨c, m, e, (some (0 : Int)).getD 0, t2⟩)
        = some (tbl ++ [⟨c, m, e, 0, t1⟩])
    rw [show (some (0 : Int)).getD 0 = 0 from rfl,
        insertReactionRow_dup tbl c m e 0 t1 t2]

/-- Witness for C9 at the empty table and a concrete reaction. -/
theorem storeReaction_null_zero_witness :
    storeReaction (some ([] : List ReactionRow)) 3 4 "🔥" none 10
      = some [⟨3, 4, "🔥", 0, 10⟩] ∧
    storeReaction (some [⟨3, 4, "🔥", 0, 10⟩]) 3 4 "🔥" (some 0) 20
      = some [⟨3, 4, "🔥", 0, 10⟩] := by
  have h := storeReaction_null_zero [] 3 4 "🔥" 10 20 (by decide)
  exact ⟨by simpa using h.1, by simpa using h.2.1⟩

/-- A Telegram chat object as `ctx.telegram.getChat` returns it, with
the fields the `/linkchannel` handler reads (`none` marks an absent,
hence falsy, field). -/
structure TgChat where
  id : Int
  type : String
  title : Option String
  username : Option String
deriving DecidableEq

/-- External calls made while handling `/linkchannel`: the result of
`getChat(arg)` (`Except.error` when the lookup throws), the result of
`getChatAdministrators` (the administrator user ids, or a throw), and
the bot's own id from `getMe`. -/
structure LinkEnv where
  getChat : Except Unit TgChat
  admins : Except Unit (List Int)
  meId : Int

/-- The `botIsAdmin` helper of index.mjs: true when the administrator
list contains the bot's id, false when the API call throws. -/
def botIsAdmin (admins : Except Unit (List Int)) (meId : Int) : Bool :=
  match admins with
  | Except.error _ => false
  | Except.ok l => l.any fun a => a == meId

/-- The `linkUserChannel` insert of index.mjs:
`INSERT INTO user_channels ... ON CONFLICT(user_id, chat_id) DO NOTHING`. -/
def linkUserChannel (tbl : List (Int × Int)) (user_id chat_id : Int) : List (Int × Int) :=
  if tbl.any (fun p => p == (user_id, chat_id)) then tbl else tbl ++ [(user_id, chat_id)]

/-- Reply text and resulting `user_channels` table of one `/linkchannel`
invocation (`none` table when no pool is configured, in which case
`linkUserChannel` is a no-op). -/
structure LinkOutcome where
  reply : String
  table : Option (List (Int × Int))
deriving DecidableEq

/-- The `/linkchannel` command handler of index.mjs: private chat only,
a non-empty argument, `getChat` must resolve, the chat type must be
`'channel'`, and `botIsAdmin` must hold; only then are the chat, the
user and the `user_channels` link row upserted.  Every earlier exit
replies with a rejection and writes nothing. -/
def linkchannelCmd (env : LinkEnv) (tbl : Option (List (Int × Int)))
    (userId : Int) (isPrivate : Bool) (arg : String) : LinkOutcome :=
  if !isPrivate then
    ⟨"Эта команда работает только в личке. Напишите мне в ЛС.", tbl⟩
  else if arg.isEmpty then
    ⟨"Формат: /linkchannel @username_канала или ID", tbl⟩
  else
    match env.getChat with
    | Except.error _ => ⟨"Не удалось найти канал или нет прав.", tbl⟩
    | Except.ok chat =>
      if chat.type ≠ "channel" then
        ⟨"Это не канал.", tbl⟩
      else if !(botIsAdmin env.admins env.meId) then
        ⟨"Я не админ в канале. Дайте права.", tbl⟩
      else
        ⟨"Канал привязан: " ++ chat.title.getD (chat.username.getD (toString chat.id))
            ++ ". Теперь можно: /post Текст поста",
         tbl.map fun t => linkUserChannel t userId chat.id⟩

/-- The rejection replies a `/linkchannel` invocation can produce. -/
def linkRejections : List String :=
  ["Эта команда работает только в личке. Напишите мне в ЛС.",
   "Формат: /linkchannel @username_канала или ID",
   "Не удалось найти канал или нет прав.",
   "Это не канал.",
   "Я не админ в канале. Дайте права."]

/-- C7.  A `/linkchannel` invocation persists a `user_channels` row
only when the resolved chat has type `'channel'` and the bot is among
its administrators: whenever the lookup fails, the chat is not a
channel, or the admin check is false, the table is unchanged and the
reply is one of the rejection messages; and in the verified case the
table gains exactly the link row via `linkUserChannel`. -/
theorem linkchannel_admin_gate (env : LinkEnv) (tbl : Option (List (Int × Int)))
    (userId : Int) (isPrivate : Bool) (arg : String) :
    ((∀ chat, env.getChat = Except.ok chat →
        chat.type ≠ "channel" ∨ botIsAdmin env.admins env.meId = false) →
      (linkchannelCmd env tbl userId isPrivate arg).table = tbl ∧
      (linkchannelCmd env tbl userId isPrivate arg).reply ∈ linkRejections) ∧
    (∀ chat, env.getChat = Except.ok chat → isPrivate = true → arg.isEmpty = false →
        chat.type = "channel" → botIsAdmin env.admins env.meId = true →
      (linkchannelCmd env tbl userId isPrivate arg).table
        = tbl.map fun t => linkUserChannel t userId chat.id) := by
  constructor
  · intro hrej
    cases isPrivate with
    | false =>
      have hout : linkchannelCmd env tbl userId false arg
          = ⟨"Эта команда работает только в личке. Напишите мне в ЛС.", tbl⟩ := by
        simp [linkchannelCmd]
      rw [hout]
      exact ⟨rfl, of_decide_eq_true rfl⟩
    | true =>
      by_cases harg : arg.isEmpty
      · have hout : linkchannelCmd env tbl userId true arg
            = ⟨"Формат: /linkchannel @username_канала или ID", tbl⟩ := by
          simp [linkchannelCmd, harg]
        rw [hout]
        exact ⟨rfl, of_decide_eq_true rfl⟩
      · cases hchat : env.getChat with
        | error e =>
          have hout : linkchannelCmd env tbl userId true arg
              = ⟨"Не удалось найти канал или нет прав.", tbl⟩ := by
            simp [linkchannelCmd, harg, hchat]
          rw [hout]
          exact ⟨rfl, of_decide_eq_true rfl⟩
        | ok chat =>
          rcases hrej chat hchat with hty | hadm
          · have hout : linkchannelCmd env tbl userId true arg
                = ⟨"Это не канал.", tbl⟩ := by
              simp [linkchannelCmd, harg, hchat, hty]
            rw [hout]
            exact ⟨rfl, of_decide_eq_true rfl⟩
          · by_cases hty2 : chat.type = "channel"
            · have hout : linkchannelCmd env tbl userId true arg
                  = ⟨"Я не админ в канале. Дайте права.", tbl⟩ := by
                simp [linkchannelCmd, harg, hchat, hty2, hadm]
              rw [hout]
              exact ⟨rfl, of_decide_eq_true rfl⟩
            · have hout : linkchannelCmd env tbl userId true arg
                  = ⟨"Это не канал.", tbl⟩ := by
                simp [linkchannelCmd, harg, hchat, hty2]
              rw [hout]
              exact ⟨rfl, of_decide_eq_true rfl⟩
  · intro chat hchat hpriv harg hty hadm
    subst hpriv
    simp [linkchannelCmd, hchat, harg, hty, hadm]

/-- A concrete environment whose chat lookup resolves to a supergroup,
used to witness the rejection branch of the C7 theorem. -/
def linkEnvGroup : LinkEnv :=
  ⟨Except.ok ⟨-100, "supergroup", none, none⟩, Except.ok [], 1⟩

/-- Witness for C7: linking a resolved non-channel chat leaves the
table unchanged and replies with a rejection. -/
theorem linkchannel_admin_gate_witness :
    (linkchannelCmd linkEnvGroup (some []) 9 true "@c").table = some [] ∧
    (linkchannelCmd linkEnvGroup (some []) 9 true "@c").reply ∈ linkRejections := by
  have h := (linkchannel_admin_gate linkEnvGroup (some []) 9 true "@c").1
  apply h
  intro chat hc
  have : (⟨-100, "supergroup", none, none⟩ : TgChat) = chat := by
    simpa [linkEnvGroup] using hc
  subst this
  exact Or.inl (by decide)

/-- JS `s.slice(0, n)`: the first `n` characters of `s`. -/
def jsSlice (s : String) (n : Nat) : String :=
  ⟨s.data.take n⟩

lemma jsSlice_length_le (s : String) (n : Nat) : (jsSlice s n).length ≤ n := by
  show (s.data.take n).length ≤ n
  simp [List.length_take]

/-- External page reads made by `fetchAndClean` (index.mjs v2): `page u`
is the cheerio-cleaned body text of a direct `fetchText(u)` (an error
when the fetch throws or times out), `reader u` the text returned by the
`r.jina.ai` reader fallback for `u`. -/
structure FetchEnv where
  page : String → Except Unit String
  reader : String → Except Unit String

/-- The reader-fallback tail of `fetchAndClean`: `fetchText` on the
`r.jina.ai` mirror, sliced to 60000 characters, or `''` when it also
throws. -/
def readerFallback (env : FetchEnv) (url : String) : String :=
  match env.reader url with
  | Except.ok t => jsSlice t 60000
  | Except.error _ => ""

/-- The `fetchAndClean` function of index.mjs: the cleaned direct page
text sliced to 60000 characters when the fetch succeeds with non-empty
text, otherwise the reader fallback. -/
def fetchAndClean (env : FetchEnv) (url : String) : String :=
  match env.page url with
  | Except.ok t => if t.isEmpty then readerFallback env url else jsSlice t 60000
  | Except.error _ => readerFallback env url

lemma fetchAndClean_length_le (env : FetchEnv) (url : String) :
    (fetchAndClean env url).length ≤ 60000 := by
  unfold fetchAndClean readerFallback
  cases env.page url with
  | ok t =>
    by_cases h : t.isEmpty
    · simp only [h, if_true]
      cases env.reader url with
      | ok r => exact jsSlice_length_le r 60000
      | error e => simp [String.length]
    · simp only [h, if_false]
      exact jsSlice_length_le t 60000
  | error e =>
    cases env.reader url with
    | ok r => exact jsSlice_length_le r 60000
    | error e2 => simp [String.length]

/-- One parsed search hit, the common `{title, url, snippet}` record all
four provider adapters produce. -/
structure SearchResult where
  title : String
  url : String
  snippet : String
deriving DecidableEq

/-- What one provider adapter call can do inside the `webSearch` loop:
throw (`Except.error`), return `null` (a key-gated provider without its
key), or return a parsed result list. -/
def ProviderOutcome := Except Unit (Option (List SearchResult))

/-- The four adapter outcomes for one query, in the fixed order of the
`chain` array of `webSearch`: Brave, SerpAPI, Bing, DuckDuckGo. -/
structure SearchEnv where
  brave : ProviderOutcome
  serpapi : ProviderOutcome
  bing : ProviderOutcome
  duck : ProviderOutcome

/-- The `chain` array of `webSearch`, in source order. -/
def chainOutcomes (se : SearchEnv) : List ProviderOutcome :=
  [se.brave, se.serpapi, se.bing, se.duck]

/-- The provider loop of `webSearch`: try each adapter in order, catch
its throw, and return the first result that is non-null and non-empty
(`if (res && res.length) return res`); `[]` when the chain is spent. -/
def runChain : List ProviderOutcome → List SearchResult
  | [] => []
  | o :: rest =>
    match o with
    | Except.error _ => runChain rest
    | Except.ok none => runChain rest
    | Except.ok (some res) => if res.length ≠ 0 then res else runChain rest

/-- The `webSearch` function of index.mjs. -/
def webSearch (se : SearchEnv) : List SearchResult :=
  runChain (chainOutcomes se)

/-- The non-empty list an outcome contributes, if any: the reading of
`res && res.length` used to state the first-success property. -/
def successHits : ProviderOutcome → Option (List SearchResult)
  | Except.ok (some l) => if l.length ≠ 0 then some l else none
  | _ => none

lemma runChain_eq_first (os : List ProviderOutcome) :
    runChain os = ((os.filterMap successHits).head?).getD [] := by
  induction os with
  | nil => rfl
  | cons o rest ih =>
    cases o with
    | error e => simpa [runChain, successHits] using ih
    | ok v =>
      cases v with
      | none => simpa [runChain, successHits] using ih
      | some res =>
        by_cases h : res.length ≠ 0
        · simp [runChain, successHits, h]
        · simpa [runChain, successHits, h] using ih

/-- The summary/sources pair `makeWebAnswer` resolves with. -/
structure WebAnswer where
  summary : String
  sources : List (Nat × String × String)
deriving DecidableEq

/-- The `makeWebAnswer` function of index.mjs.  `llm` supplies the chat
completion content for the prompt it builds (`''` for empty content).
With no search results it resolves immediately with the literal
nothing-found summary and no sources; otherwise it reads up to five
result pages, builds the corpus prompt, and numbers all results as
sources. -/
def makeWebAnswer (se : SearchEnv) (fe : FetchEnv) (llm : String → String)
    (query : String) : WebAnswer :=
  let results := webSearch se
  if results.length = 0 then ⟨"Ничего не нашлось.", []⟩
  else
    let toRead := results.take (min results.length 5)
    let chunks := toRead.map fun r => (r, jsSlice (fetchAndClean fe r.url) 8000)
    let corpus := String.intercalate "\n\n---\n\n" (chunks.enum.map fun p =>
      "#" ++ toString (p.1 + 1) ++ " " ++ p.2.1.title ++ "\nURL: " ++ p.2.1.url
        ++ "\nТекст (усеч.):\n"
        ++ (if p.2.2.isEmpty then "(не удалось получить)" else p.2.2))
    let prompt :=
      "Ты — веб-помощник. По запросу пользователя выполни поиск и дай точный, краткий ответ с пунктами и выводом.\nИспользуй только факты из корпуса ниже. После ответа перечисли источники в формате [#N] Заголовок — URL.\n\nЗапрос: "
        ++ query ++ "\n\nКорпус:\n" ++ corpus
    let s := llm prompt
    ⟨if s.isEmpty then "—" else s,
     results.enum.map fun p => (p.1 + 1, p.2.title, p.2.url)⟩

/-- The reply text the `/search` handler sends:
``summary + "\n\nИсточники:\n" + tail`` with one numbered line per source. -/
def searchReplyText (a : WebAnswer) : String :=
  a.summary ++ "\n\nИсточники:\n"
    ++ String.intercalate "\n"
        (a.sources.map fun s => "[" ++ toString s.1 ++ "] " ++ s.2.1 ++ "\n" ++ s.2.2)

/-- C4.  `webSearch` returns the result list of the first provider in
the fixed Brave, SerpAPI, Bing, DuckDuckGo order whose outcome is a
non-null, non-empty list (throwing, null and empty outcomes are
skipped), and `[]` when every provider fails that test; in that case
`makeWebAnswer` resolves with the literal nothing-found summary, no
sources, and the `/search` reply text carries exactly that literal
(followed by the then-empty sources section). -/
theorem webSearch_fallback (se : SearchEnv) (fe : FetchEnv) (llm : String → String)
    (query : String) :
    webSearch se = (((chainOutcomes se).filterMap successHits).head?).getD [] ∧
    (webSearch se = [] →
      makeWebAnswer se fe llm query = ⟨"Ничего не нашлось.", []⟩ ∧
      searchReplyText (makeWebAnswer se fe llm query)
        = "Ничего не нашлось.\n\nИсточники:\n") := by
  refine ⟨runChain_eq_first (chainOutcomes se), ?_⟩
  intro hempty
  have hma : makeWebAnswer se fe llm query = ⟨"Ничего не нашлось.", []⟩ := by
    unfold makeWebAnswer
    rw [hempty]
    rfl
  refine ⟨hma, ?_⟩
  rw [hma]
  rfl

/-- Witness for C4: with every provider throwing, the search yields no
results and the reply text is the nothing-found message. -/
theorem webSearch_fallback_witness :
    searchReplyText
        (makeWebAnswer ⟨Except.error (), Except.error (), Except.error (), Except.error ()⟩
          ⟨fun _ => Except.error (), fun _ => Except.error ()⟩ (fun _ => "") "q")
      = "Ничего не нашлось.\n\nИсточники:\n" := by
  have h := (webSearch_fallback
      ⟨Except.error (), Except.error (), Except.error (), Except.error ()⟩
      ⟨fun _ => Except.error (), fun _ => Except.error ()⟩ (fun _ => "") "q").2 rfl
  exact h.2

/-- Case-insensitive literal match: consumes `pat` (given lowercase)
from the front of `cs`, returning the remainder. -/
def stripCI : List Char → List Char → Option (List Char)
  | [], cs => some cs
  | _ :: _, [] => none
  | p :: ps, c :: cs => if c.toLower = p then stripCI ps cs else none

/-- Attempt of `/https?:\/\/\S+/i` anchored at the start of `cs`:
`http`, an optional `s` (with regex backtracking), `://`, then a
maximal non-empty run of non-whitespace characters.  Returns the
matched characters and the remainder after the match. -/
def matchUrlAt (cs : List Char) : Option (List Char × List Char) :=
  match stripCI ['h', 't', 't', 'p'] cs with
  | none => none
  | some r1 =>
    let afterSchemeSep : Option (List Char) :=
      match r1 with
      | c :: t =>
        if c.toLower = 's' then
          match stripCI [':', '/', '/'] t with
          | some r => some r
          | none => stripCI [':', '/', '/'] r1
        else stripCI [':', '/', '/'] r1
      | [] => none
    match afterSchemeSep with
    | none => none
    | some r3 =>
      let body := r3.takeWhile fun c => !c.isWhitespace
      if body.isEmpty then none
      else some (cs.take (cs.length - r3.length) ++ body, r3.drop body.length)

/-- Fuel-indexed global scan of `/https?:\/\/\S+/gi`: at each position
emit the anchored match and continue after it, otherwise advance one
character; the fuel (initialised to the text length) dominates the
number of remaining positions. -/
def scanUrlsAux : Nat → List Char → List String
  | 0, _ => []
  | _ + 1, [] => []
  | fuel + 1, c :: rest =>
    match matchUrlAt (c :: rest) with
    | some (m, r) => String.mk m :: scanUrlsAux fuel r
    | none => scanUrlsAux fuel rest

/-- The `userText.match(URL_RE) || []` step of `makeLLMReply`. -/
def scanUrls (s : String) : List String :=
  scanUrlsAux s.data.length s.data

/-- The `.slice(0, 3)` of `makeLLMReply`: the URLs that get enriched. -/
def makeLLMReplyUrls (userText : String) : List String :=
  (scanUrls userText).take 3

/-- The extracted page text appended for one URL inside the enrichment
loop of `makeLLMReply`: `txt.slice(0, 3000)` of the `fetchAndClean`
result. -/
def enrichExtract (env : FetchEnv) (u : String) : String :=
  jsSlice (fetchAndClean env u) 3000

/-- The per-URL addendum parts built by the enrichment loop. -/
def enrichmentParts (env : FetchEnv) (urls : List String) : List String :=
  urls.map fun u => "[" ++ u ++ "] Содержание:\n" ++ enrichExtract env u

/-- C5.  Link enrichment in `makeLLMReply` processes at most 3 URLs
however many the text matches, the page text appended for each enriched
URL is truncated to at most 3000 characters, and the `fetchAndClean`
result it is cut from is itself capped at 60000 characters. -/
theorem makeLLMReply_link_budget (env : FetchEnv) (userText : String) :
    (makeLLMReplyUrls userText).length ≤ 3 ∧
    (∀ u ∈ makeLLMReplyUrls userText, (enrichExtract env u).length ≤ 3000) ∧
    (∀ url : String, (fetchAndClean env url).length ≤ 60000) := by
  refine ⟨?_, ?_, fetchAndClean_length_le env⟩
  · unfold makeLLMReplyUrls
    simp [List.length_take]
  · intro u _
    exact jsSlice_length_le (fetchAndClean env u) 3000

/-- Witness for C5: a text containing four URLs is enriched for only
its first three, each with a bounded extract. -/
theorem makeLLMReply_link_budget_witness :
    makeLLMReplyUrls "a http://x1 b HTTPS://x2 http://x3 see http://x4"
        = ["http://x1", "HTTPS://x2", "http://x3"] ∧
    scanUrls "a http://x1 b HTTPS://x2 http://x3 see http://x4"
        = ["http://x1", "HTTPS://x2", "http://x3", "http://x4"] ∧
    (enrichExtract ⟨fun _ => Except.ok "page body", fun _ => Except.error ()⟩
        "http://x1").length ≤ 3000 := by
  refine ⟨by decide, by decide, ?_⟩
  have h := makeLLMReply_link_budget
      ⟨fun _ => Except.ok "page body", fun _ => Except.error ()⟩
      "a http://x1 b HTTPS://x2 http://x3 see http://x4"
  exact h.2.1 "http://x1" (by decide)

/-- JS `String.prototype.split` on a one-character separator: cut at
every separator occurrence, keeping empty fragments (structural
recursion over the characters, with the fragment being built). -/
def splitChAux (sep : Char) : List Char → List Char → List String
  | [], cur => [String.mk cur.reverse]
  | c :: rest, cur =>
    if c = sep then String.mk cur.reverse :: splitChAux sep rest []
    else splitChAux sep rest (c :: cur)

/-- The `text.split(' ')` step of the `/search` handler. -/
def jsSplitSpace (s : String) : List String :=
  splitChAux ' ' s.data []

/-- JS `String.prototype.trim`: strip whitespace from both ends. -/
def jsTrim (s : String) : String :=
  String.mk (((s.data.dropWhile Char.isWhitespace).reverse.dropWhile
    Char.isWhitespace).reverse)

/-- JS `parseInt(s, 10)` restricted to the all-digit strings accepted
by `/^\d+$/`. -/
def parseIntDigits (s : String) : Nat :=
  s.data.foldl (fun acc c => acc * 10 + (c.toNat - 48)) 0

/-- The `/^\d+$/` test of the `/search` handler: a non-empty token of
ASCII digits. -/
def digitTok (s : String) : Bool :=
  !s.isEmpty && s.data.all Char.isDigit

/-- The tail of the `/search` argument parsing, applied to
`rest = text.split(' ').slice(1)`: `none` (the usage reply) when no
tokens remain; otherwise, when the final token passes `/^\d+$/`, the
limit is `Math.max(3, Math.min(10, parseInt(last, 10)))` and the token
is popped before the query is rejoined with single spaces and trimmed,
else the limit stays 5. -/
def searchParseRest (rest : List String) : Option (Nat × String) :=
  match rest.getLast? with
  | none => none
  | some last =>
    if digitTok last then
      some (max 3 (min 10 (parseIntDigits last)),
            jsTrim (String.intercalate " " rest.dropLast))
    else
      some (5, jsTrim (String.intercalate " " rest))

/-- The argument parsing of the `/search` command handler of index.mjs. -/
def searchParse (text : String) : Option (Nat × String) :=
  searchParseRest ((jsSplitSpace text).drop 1)

/-- Modelled from the spec wording of C10: the whitespace-separated
tokens of a string (split on any whitespace character, empty fragments
dropped), used only to state what the claim asserts about the last
token of the arguments. -/
def wsTokens (s : String) : List String :=
  ((s.data.splitOnP Char.isWhitespace).map String.mk).filter fun t => !t.isEmpty

/-- Counterexample to C10 as stated.  In `/search a\t7` the last
whitespace-separated token of the arguments is the decimal number `7`,
so the claim requires limit `max 3 (min 10 7) = 7`; the code splits on
single spaces only, sees the lone token `a\t7`, fails the digit test
and keeps limit 5 with the token still in the query. -/
theorem searchParse_ws_cex :
    wsTokens "a\t7" = ["a", "7"] ∧
    (wsTokens "a\t7").getLast? = some "7" ∧
    digitTok "7" = true ∧
    searchParse "/search a\t7" = some (5, "a\t7") ∧
    (5 : Nat) ≠ max 3 (min 10 7) := by
  refine ⟨by decide, by decide, by decide, by decide, by decide⟩

/-- C10 (amended).  For a `/search` command whose argument token list
(split on single space characters, as the code does) is non-empty: when
the final token is a non-empty digit string `k`, the limit passed to the
search pipeline is `max 3 (min 10 k)` and that token is removed before
the query is rejoined; otherwise the limit is 5 and the query keeps all
tokens. -/
theorem searchParse_space_tokens (text : String) (rest : List String) (last : String)
    (hr : rest = (jsSplitSpace text).drop 1)
    (hl : rest.getLast? = some last) :
    (digitTok last = true →
      searchParse text = some (max 3 (min 10 (parseIntDigits last)),
        jsTrim (String.intercalate " " rest.dropLast))) ∧
    (digitTok last = false →
      searchParse text = some (5, jsTrim (String.intercalate " " rest))) := by
  constructor
  · intro hd
    unfold searchParse searchParseRest
    rw [← hr, hl]
    simp [hd]
  · intro hd
    unfold searchParse searchParseRest
    rw [← hr, hl]
    simp [hd]

/-- Witness for the amended C10 at `/search foo 7` (digit branch) . -/
theorem searchParse_space_tokens_witness :
    searchParse "/search foo 7" = some (7, "foo") := by
  have h := (searchParse_space_tokens "/search foo 7" ["foo", "7"] "7"
      (by decide) (by decide)).1 (by decide)
  rw [h]
  decide

end GptBot
